import Mathlib

/-!
Formal model of the numeric core of `media_response_curve/app.py`.

The Python source is embedded shallowly over the real numbers:

* `compute_adstock_series` — the exponential-decay carryover scan;
* `saturation_function` — the Hill-type saturation transform (numpy `**` on
  real operands becomes `Real.rpow`);
* `compute_response_series` — the composition of the two, scaled by the
  effectiveness coefficient;
* `compute_elasticity` — `np.gradient` (1-D, explicit coordinate array,
  default `edge_order = 1`) followed by the `np.where(response != 0, ...)`
  elasticity convention; `np.gradient` raises on arrays of fewer than two
  samples, so the embedding returns an `Option`;
* the module-level landmark search `idx_C` / `idx_D`
  (`np.where(slope < threshold)[0][0]`) is embedded as a first-index search
  returning `Option ℕ`, `none` standing for the empty `np.where` result on
  which the Python subscript `[0]` raises `IndexError`;
* `point_A_x` / `point_A_y` and the landmark pairs `point_C` / `point_D`.
-/

open Real

/-- Decay factor `decay = 0.5 ** (1 / half_life)` from `compute_adstock_series`
(line 9 of `app.py`). -/
noncomputable def adstockDecay (half_life : ℝ) : ℝ :=
  Real.rpow 0.5 (1 / half_life)

/-- The carryover scan inside `compute_adstock_series` (lines 10-16):
`current = spend + decay * carryover; append; carryover = current`. -/
noncomputable def adstockScan (decay : ℝ) : List ℝ → ℝ → List ℝ
  | [], _ => []
  | s :: rest, carryover =>
    (s + decay * carryover) :: adstockScan decay rest (s + decay * carryover)

/-- Embeds `compute_adstock_series(spend_series, half_life)` (lines 8-16):
carryover starts at 0 and the list is scanned left to right. -/
noncomputable def compute_adstock_series (spend_series : List ℝ) (half_life : ℝ) : List ℝ :=
  adstockScan (adstockDecay half_life) spend_series 0

/-- Embeds `saturation_function(adstocked_spend, penetration, p)` (lines 18-19),
per element: `x ** p / (x ** p + penetration ** p)`. -/
noncomputable def saturation_function (adstocked_spend penetration p : ℝ) : ℝ :=
  Real.rpow adstocked_spend p /
    (Real.rpow adstocked_spend p + Real.rpow penetration p)

/-- Embeds `compute_response_series(spend_series, half_life, penetration,
effectiveness, p)` (lines 21-25): returns `(response, adstocked)`. -/
noncomputable def compute_response_series (spend_series : List ℝ)
    (half_life penetration effectiveness p : ℝ) : List ℝ × List ℝ :=
  let adstocked := compute_adstock_series spend_series half_life
  let saturated := adstocked.map (fun x => saturation_function x penetration p)
  let response := saturated.map (fun s => effectiveness * s)
  (response, adstocked)

section AdstockLemmas

lemma adstockScan_length (decay : ℝ) :
    ∀ (xs : List ℝ) (c : ℝ), (adstockScan decay xs c).length = xs.length
  | [], _ => rfl
  | _ :: rest, c => by
    simp [adstockScan, adstockScan_length decay rest]

lemma adstockScan_nil (decay c : ℝ) : adstockScan decay [] c = [] := rfl

lemma adstockScan_head (decay a c : ℝ) (rest : List ℝ) :
    (adstockScan decay (a :: rest) c).getD 0 0 = a + decay * c := by
  simp [adstockScan]

/-- Positional recurrence of the carryover scan: each output element past the
first is the input element plus `decay` times the previous output element. -/
lemma adstockScan_rec (decay : ℝ) :
    ∀ (xs : List ℝ) (c : ℝ) (i : ℕ), i + 1 < xs.length →
      (adstockScan decay xs c).getD (i + 1) 0
        = xs.getD (i + 1) 0 + decay * (adstockScan decay xs c).getD i 0
  | [], _, i, h => by simp at h
  | a :: rest, c, 0, h => by
    match rest, h with
    | b :: rest', _ =>
      simp [adstockScan]
  | a :: rest, c, i + 1, h => by
    have hlen : i + 1 < rest.length := by
      simpa using Nat.lt_of_succ_lt_succ h
    simpa [adstockScan] using adstockScan_rec decay rest (a + decay * c) i hlen

/-- Pointwise domination: with nonnegative decay, carryover and inputs, each
scan output dominates the corresponding input and is nonnegative. -/
lemma adstockScan_ge (decay : ℝ) (hd : 0 ≤ decay) :
    ∀ (xs : List ℝ) (c : ℝ), 0 ≤ c → (∀ y ∈ xs, 0 ≤ y) →
      ∀ i, i < xs.length →
        xs.getD i 0 ≤ (adstockScan decay xs c).getD i 0
          ∧ 0 ≤ (adstockScan decay xs c).getD i 0
  | [], _, _, _, i, h => by simp at h
  | a :: rest, c, hc, hmem, 0, _ => by
    have ha : 0 ≤ a := hmem a (List.mem_cons_self a rest)
    have hdc : 0 ≤ decay * c := mul_nonneg hd hc
    constructor
    · simpa [adstockScan] using by linarith
    · simpa [adstockScan] using by linarith
  | a :: rest, c, hc, hmem, i + 1, h => by
    have ha : 0 ≤ a := hmem a (List.mem_cons_self a rest)
    have hc' : 0 ≤ a + decay * c := by
      have := mul_nonneg hd hc
      linarith
    have hmem' : ∀ y ∈ rest, 0 ≤ y := fun y hy => hmem y (List.mem_cons_of_mem a hy)
    have hlen : i < rest.length := by simpa using Nat.lt_of_succ_lt_succ h
    simpa [adstockScan] using
      adstockScan_ge decay hd rest (a + decay * c) hc' hmem' i hlen

/-- The scan maps an all-zero input to an all-zero output. -/
lemma adstockScan_zero (decay : ℝ) :
    ∀ n : ℕ, adstockScan decay (List.replicate n 0) 0 = List.replicate n 0
  | 0 => rfl
  | n + 1 => by
    simp [List.replicate_succ, adstockScan, adstockScan_zero decay n]

lemma adstockDecay_pos (half_life : ℝ) : 0 < adstockDecay half_life :=
  Real.rpow_pos_of_pos (by norm_num) _

end AdstockLemmas

/-- C1: for every spend series and every `halfLife > 0`, the adstock transform
returns a series of the same length whose first element equals the first
spend and which satisfies `a[i] = s[i] + decay * a[i-1]` for `1 ≤ i < len`,
with `decay = 0.5 ^ (1 / halfLife)`; an empty input yields an empty output. -/
theorem adstock_recurrence_correct (spend : List ℝ) (halfLife : ℝ)
    (hpos : 0 < halfLife) :
    (compute_adstock_series spend halfLife).length = spend.length
    ∧ (spend = [] → compute_adstock_series spend halfLife = [])
    ∧ (0 < spend.length →
        (compute_adstock_series spend halfLife).getD 0 0 = spend.getD 0 0)
    ∧ (∀ i, 1 ≤ i → i < spend.length →
        (compute_adstock_series spend halfLife).getD i 0
          = spend.getD i 0
            + adstockDecay halfLife
              * (compute_adstock_series spend halfLife).getD (i - 1) 0) := by
  refine ⟨adstockScan_length _ spend 0, ?_, ?_, ?_⟩
  · intro h
    subst h
    rfl
  · intro h
    match spend, h with
    | a :: rest, _ =>
      simp [compute_adstock_series, adstockScan]
  · intro i h1 hlen
    obtain ⟨j, rfl⟩ : ∃ j, i = j + 1 := ⟨i - 1, by omega⟩
    have := adstockScan_rec (adstockDecay halfLife) spend 0 j hlen
    simpa [compute_adstock_series] using this

theorem adstock_recurrence_correct_witness :
    0 < (1 : ℝ)
    ∧ ((compute_adstock_series [3, 4] 1).length = ([3, 4] : List ℝ).length
      ∧ (([3, 4] : List ℝ) = [] → compute_adstock_series [3, 4] 1 = [])
      ∧ (0 < ([3, 4] : List ℝ).length →
          (compute_adstock_series [3, 4] 1).getD 0 0 = ([3, 4] : List ℝ).getD 0 0)
      ∧ (∀ i, 1 ≤ i → i < ([3, 4] : List ℝ).length →
          (compute_adstock_series [3, 4] 1).getD i 0
            = ([3, 4] : List ℝ).getD i 0
              + adstockDecay 1 * (compute_adstock_series [3, 4] 1).getD (i - 1) 0)) :=
  ⟨by norm_num, adstock_recurrence_correct [3, 4] 1 (by norm_num)⟩

/-- C10: for nonnegative spend and positive half-life, every adstocked value
dominates the corresponding spend value (hence is nonnegative), and an
all-zero spend series yields an all-zero adstocked series. -/
theorem adstock_dominates_spend (spend : List ℝ) (halfLife : ℝ)
    (hpos : 0 < halfLife) (hmem : ∀ y ∈ spend, 0 ≤ y) :
    (∀ i, i < spend.length →
        spend.getD i 0 ≤ (compute_adstock_series spend halfLife).getD i 0
        ∧ 0 ≤ (compute_adstock_series spend halfLife).getD i 0)
    ∧ (∀ n : ℕ,
        compute_adstock_series (List.replicate n 0) halfLife = List.replicate n 0) := by
  constructor
  · intro i hi
    exact adstockScan_ge (adstockDecay halfLife) (adstockDecay_pos halfLife).le
      spend 0 le_rfl hmem i hi
  · intro n
    exact adstockScan_zero (adstockDecay halfLife) n

theorem adstock_dominates_spend_witness :
    (∀ y ∈ ([1, 2] : List ℝ), 0 ≤ y)
    ∧ ((∀ i, i < ([1, 2] : List ℝ).length →
        ([1, 2] : List ℝ).getD i 0 ≤ (compute_adstock_series [1, 2] 7).getD i 0
        ∧ 0 ≤ (compute_adstock_series [1, 2] 7).getD i 0)
      ∧ (∀ n : ℕ,
          compute_adstock_series (List.replicate n 0) 7 = List.replicate n 0)) :=
  ⟨by intro y hy; simp only [List.mem_cons, List.not_mem_nil, or_false] at hy
      rcases hy with rfl | rfl <;> norm_num,
   adstock_dominates_spend [1, 2] 7 (by norm_num)
     (by intro y hy; simp only [List.mem_cons, List.not_mem_nil, or_false] at hy
         rcases hy with rfl | rfl <;> norm_num)⟩

/-- Embeds `point_A_x = penetration` (line 93 of `app.py`). -/
noncomputable def point_A_x (penetration : ℝ) : ℝ := penetration

/-- Embeds `point_A_y = effectiveness * (point_A_x ** hill_power /
(point_A_x ** hill_power + penetration ** hill_power))` (line 94). -/
noncomputable def point_A_y (penetration effectiveness hill_power : ℝ) : ℝ :=
  effectiveness *
    (Real.rpow (point_A_x penetration) hill_power /
      (Real.rpow (point_A_x penetration) hill_power + Real.rpow penetration hill_power))

/-- C6: the saturation function evaluates to exactly 1/2 at the penetration
point, and the code's `point_A_y` equals `effectiveness * 0.5`. -/
theorem saturation_midpoint (penetration effectiveness p : ℝ)
    (hpen : 0 < penetration) (hp : 0 < p) :
    saturation_function penetration penetration p = 1 / 2
    ∧ point_A_y penetration effectiveness p = effectiveness * (1 / 2) := by
  have hx : 0 < Real.rpow penetration p := Real.rpow_pos_of_pos hpen p
  have hmid : Real.rpow penetration p /
      (Real.rpow penetration p + Real.rpow penetration p) = 1 / 2 := by
    rw [div_eq_iff (by linarith)]
    ring
  constructor
  · simpa [saturation_function] using hmid
  · simp only [point_A_y, point_A_x, hmid]

theorem saturation_midpoint_witness :
    0 < (2 : ℝ) ∧ 0 < (1 : ℝ)
    ∧ (saturation_function 2 2 1 = 1 / 2
      ∧ point_A_y 2 5 1 = 5 * (1 / 2)) :=
  ⟨by norm_num, by norm_num, saturation_midpoint 2 5 1 (by norm_num) (by norm_num)⟩

/-- C9: for fixed `penetration > 0` and `p > 0` the saturation function is
non-decreasing on nonnegative inputs. -/
theorem saturation_monotone (penetration p x1 x2 : ℝ)
    (hpen : 0 < penetration) (hp : 0 < p) (hx1 : 0 ≤ x1) (h12 : x1 ≤ x2) :
    saturation_function x1 penetration p ≤ saturation_function x2 penetration p := by
  have hK : 0 < Real.rpow penetration p := Real.rpow_pos_of_pos hpen p
  have ha : 0 ≤ Real.rpow x1 p := Real.rpow_nonneg hx1 p
  have hab : Real.rpow x1 p ≤ Real.rpow x2 p := Real.rpow_le_rpow hx1 h12 hp.le
  have hb : 0 ≤ Real.rpow x2 p := ha.trans hab
  unfold saturation_function
  rw [div_le_div_iff (by linarith) (by linarith)]
  nlinarith [mul_le_mul_of_nonneg_right hab hK.le]

theorem saturation_monotone_witness :
    0 < (2 : ℝ) ∧ 0 < (1 : ℝ) ∧ (0 : ℝ) ≤ 1 ∧ (1 : ℝ) ≤ 3
    ∧ saturation_function 1 2 1 ≤ saturation_function 3 2 1 :=
  ⟨by norm_num, by norm_num, by norm_num, by norm_num,
   saturation_monotone 2 1 1 3 (by norm_num) (by norm_num) (by norm_num) (by norm_num)⟩

/-- Element `i` of `np.gradient(f, x)` for a 1-D array with an explicit
coordinate array and default `edge_order = 1`: one-sided two-point quotients
at the two boundary samples, and numpy's second-order accurate non-uniform
central difference at interior points, with `hs = x[i] - x[i-1]` and
`hd = x[i+1] - x[i]`:
`(hs^2 * f[i+1] + (hd^2 - hs^2) * f[i] - hd^2 * f[i-1]) / (hs * hd * (hd + hs))`
(the cleared-denominator form of numpy's coefficients
`a = -hd / (hs * (hs + hd))`, `b = (hd - hs) / (hs * hd)`,
`c = hs / (hd * (hs + hd))`). -/
noncomputable def npGradientAt (f x : List ℝ) (i : ℕ) : ℝ :=
  if i = 0 then
    (f.getD 1 0 - f.getD 0 0) / (x.getD 1 0 - x.getD 0 0)
  else if i = f.length - 1 then
    (f.getD i 0 - f.getD (i - 1) 0) / (x.getD i 0 - x.getD (i - 1) 0)
  else
    (((x.getD i 0 - x.getD (i - 1) 0) * (x.getD i 0 - x.getD (i - 1) 0))
        * f.getD (i + 1) 0
      + ((x.getD (i + 1) 0 - x.getD i 0) * (x.getD (i + 1) 0 - x.getD i 0)
          - (x.getD i 0 - x.getD (i - 1) 0) * (x.getD i 0 - x.getD (i - 1) 0))
        * f.getD i 0
      - ((x.getD (i + 1) 0 - x.getD i 0) * (x.getD (i + 1) 0 - x.getD i 0))
        * f.getD (i - 1) 0)
    / ((x.getD i 0 - x.getD (i - 1) 0) * (x.getD (i + 1) 0 - x.getD i 0)
        * ((x.getD (i + 1) 0 - x.getD i 0) + (x.getD i 0 - x.getD (i - 1) 0)))

/-- Embeds `np.gradient(f, x)`: numpy raises a `ValueError` when the array has
fewer than `edge_order + 1 = 2` samples or when the coordinate array length
does not match, modelled as `none`. -/
noncomputable def npGradient (f x : List ℝ) : Option (List ℝ) :=
  if 2 ≤ f.length ∧ x.length = f.length then
    some ((List.range f.length).map (npGradientAt f x))
  else none

/-- Embeds `compute_elasticity(response, adstocked)` (lines 27-31):
`dy = np.gradient(response, adstocked)` and
`elasticity = np.where(response != 0, dy * (adstocked / response), 0)`. -/
noncomputable def compute_elasticity (response adstocked : List ℝ) :
    Option (List ℝ × List ℝ) :=
  (npGradient response adstocked).map (fun dy =>
    (dy, (List.range response.length).map (fun i =>
      if response.getD i 0 ≠ 0 then
        dy.getD i 0 * (adstocked.getD i 0 / response.getD i 0)
      else 0)))

lemma getD_map_range (g : ℕ → ℝ) (n i : ℕ) (hi : i < n) :
    (((List.range n).map g).getD i 0) = g i := by
  rw [List.getD_eq_getElem?_getD, List.getElem?_map, List.getElem?_range hi]
  rfl

/-- C3: with fewer than two samples, `compute_elasticity` fails (numpy's
gradient refuses the input) and no derivative or elasticity value is
produced. -/
theorem elasticity_insufficient_data (response adstocked : List ℝ)
    (h : response.length < 2) :
    compute_elasticity response adstocked = none := by
  have hcond : ¬ (2 ≤ response.length ∧ adstocked.length = response.length) := by
    intro hc
    omega
  simp [compute_elasticity, npGradient, hcond]

theorem elasticity_insufficient_data_witness :
    ([50] : List ℝ).length < 2 ∧ compute_elasticity [50] [50] = none :=
  ⟨by norm_num, elasticity_insufficient_data [50] [50] (by norm_num)⟩

/-- C7: on equal-length inputs with at least two samples the elasticity at
every index is `slope[i] * (adstocked[i] / response[i])` when
`response[i] ≠ 0` and `0` when `response[i] = 0`. -/
theorem elasticity_pointwise (response adstocked : List ℝ)
    (hlen : adstocked.length = response.length) (h2 : 2 ≤ response.length) :
    ∃ dy elas, compute_elasticity response adstocked = some (dy, elas)
      ∧ elas.length = response.length
      ∧ ∀ i, i < response.length →
          (response.getD i 0 ≠ 0 →
            elas.getD i 0 = dy.getD i 0 * (adstocked.getD i 0 / response.getD i 0))
          ∧ (response.getD i 0 = 0 → elas.getD i 0 = 0) := by
  refine ⟨(List.range response.length).map (npGradientAt response adstocked),
    (List.range response.length).map (fun i =>
      if response.getD i 0 ≠ 0 then
        ((List.range response.length).map (npGradientAt response adstocked)).getD i 0
          * (adstocked.getD i 0 / response.getD i 0)
      else 0), ?_, ?_, ?_⟩
  · simp [compute_elasticity, npGradient, h2, hlen]
  · simp
  · intro i hi
    constructor
    · intro hne
      rw [getD_map_range _ _ _ hi, if_pos hne]
    · intro hzero
      rw [getD_map_range _ _ _ hi, if_neg (not_not_intro hzero)]

theorem elasticity_pointwise_witness :
    ([3, 4] : List ℝ).length = ([1, 2] : List ℝ).length
    ∧ 2 ≤ ([1, 2] : List ℝ).length
    ∧ (∃ dy elas, compute_elasticity [1, 2] [3, 4] = some (dy, elas)
      ∧ elas.length = ([1, 2] : List ℝ).length
      ∧ ∀ i, i < ([1, 2] : List ℝ).length →
          (([1, 2] : List ℝ).getD i 0 ≠ 0 →
            elas.getD i 0
              = dy.getD i 0 * (([3, 4] : List ℝ).getD i 0 / ([1, 2] : List ℝ).getD i 0))
          ∧ (([1, 2] : List ℝ).getD i 0 = 0 → elas.getD i 0 = 0)) :=
  ⟨by norm_num, by norm_num,
   elasticity_pointwise [1, 2] [3, 4] (by norm_num) (by norm_num)⟩

/-- Algebraic core of the uniform-spacing case of numpy's interior formula:
with equal nonzero spacings the second-order non-uniform central difference
collapses to the symmetric difference quotient. -/
lemma uniform_central_difference (h fm f0 fp : ℝ) (hh : h ≠ 0) :
    (h * h * fp + (h * h - h * h) * f0 - h * h * fm) / (h * h * (h + h))
      = (fp - fm) / (h + h) := by
  have h2 : h + h ≠ 0 := fun hc => hh (by linarith)
  field_simp
  ring

/-- C8 (amended): the slope sequence produced by `np.gradient` uses one-sided
two-point quotients at the two boundary samples and numpy's second-order
non-uniform central difference at interior points; the interior value
coincides with the symmetric difference
`(f[i+1] - f[i-1]) / (x[i+1] - x[i-1])` whenever the local spacing is
uniform and nonzero (`x[i+1] - x[i] = x[i] - x[i-1] ≠ 0`). -/
theorem gradient_shape (f x : List ℝ)
    (hlen : x.length = f.length) (h2 : 2 ≤ f.length) :
    ∃ dy, npGradient f x = some dy
      ∧ dy.length = f.length
      ∧ dy.getD 0 0 = (f.getD 1 0 - f.getD 0 0) / (x.getD 1 0 - x.getD 0 0)
      ∧ dy.getD (f.length - 1) 0
          = (f.getD (f.length - 1) 0 - f.getD (f.length - 2) 0)
            / (x.getD (f.length - 1) 0 - x.getD (f.length - 2) 0)
      ∧ ∀ i, 0 < i → i < f.length - 1 →
          x.getD (i + 1) 0 - x.getD i 0 = x.getD i 0 - x.getD (i - 1) 0 →
          x.getD i 0 - x.getD (i - 1) 0 ≠ 0 →
          dy.getD i 0
            = (f.getD (i + 1) 0 - f.getD (i - 1) 0)
              / (x.getD (i + 1) 0 - x.getD (i - 1) 0) := by
  refine ⟨(List.range f.length).map (npGradientAt f x), ?_, by simp, ?_, ?_, ?_⟩
  · simp [npGradient, h2, hlen]
  · rw [getD_map_range _ _ _ (by omega)]
    simp [npGradientAt]
  · rw [getD_map_range _ _ _ (by omega)]
    have hne : f.length - 1 ≠ 0 := by omega
    have hlast : f.length - 1 - 1 = f.length - 2 := by omega
    unfold npGradientAt
    rw [if_neg hne, if_pos rfl, hlast]
  · intro i hi0 hitop huni hne
    rw [getD_map_range _ _ _ (by omega)]
    have hne0 : i ≠ 0 := by omega
    have hnelast : i ≠ f.length - 1 := by omega
    unfold npGradientAt
    rw [if_neg hne0, if_neg hnelast, huni]
    have hx2 : x.getD (i + 1) 0 - x.getD (i - 1) 0
        = (x.getD i 0 - x.getD (i - 1) 0) + (x.getD i 0 - x.getD (i - 1) 0) := by
      linarith [huni]
    rw [hx2]
    exact uniform_central_difference (x.getD i 0 - x.getD (i - 1) 0)
      (f.getD (i - 1) 0) (f.getD i 0) (f.getD (i + 1) 0) hne

theorem gradient_shape_witness :
    ([0, 2, 4] : List ℝ).length = ([0, 1, 2] : List ℝ).length
    ∧ 2 ≤ ([0, 1, 2] : List ℝ).length
    ∧ (∃ dy, npGradient [0, 1, 2] [0, 2, 4] = some dy
      ∧ dy.length = ([0, 1, 2] : List ℝ).length
      ∧ dy.getD 0 0
          = (([0, 1, 2] : List ℝ).getD 1 0 - ([0, 1, 2] : List ℝ).getD 0 0)
            / (([0, 2, 4] : List ℝ).getD 1 0 - ([0, 2, 4] : List ℝ).getD 0 0)
      ∧ dy.getD (([0, 1, 2] : List ℝ).length - 1) 0
          = (([0, 1, 2] : List ℝ).getD (([0, 1, 2] : List ℝ).length - 1) 0
              - ([0, 1, 2] : List ℝ).getD (([0, 1, 2] : List ℝ).length - 2) 0)
            / (([0, 2, 4] : List ℝ).getD (([0, 1, 2] : List ℝ).length - 1) 0
              - ([0, 2, 4] : List ℝ).getD (([0, 1, 2] : List ℝ).length - 2) 0)
      ∧ ∀ i, 0 < i → i < ([0, 1, 2] : List ℝ).length - 1 →
          ([0, 2, 4] : List ℝ).getD (i + 1) 0 - ([0, 2, 4] : List ℝ).getD i 0
            = ([0, 2, 4] : List ℝ).getD i 0 - ([0, 2, 4] : List ℝ).getD (i - 1) 0 →
          ([0, 2, 4] : List ℝ).getD i 0 - ([0, 2, 4] : List ℝ).getD (i - 1) 0 ≠ 0 →
          dy.getD i 0
            = (([0, 1, 2] : List ℝ).getD (i + 1) 0 - ([0, 1, 2] : List ℝ).getD (i - 1) 0)
              / (([0, 2, 4] : List ℝ).getD (i + 1) 0
                - ([0, 2, 4] : List ℝ).getD (i - 1) 0)) :=
  ⟨by norm_num, by norm_num, gradient_shape [0, 1, 2] [0, 2, 4] (by norm_num) (by norm_num)⟩

/-- C8 (counterexample): on the non-uniformly spaced input
`f = [0, 1, 0]`, `x = [0, 1, 3]`, numpy's gradient yields `1/2` at the
interior index, while the symmetric difference
`(f[2] - f[0]) / (x[2] - x[0])` claimed by the specification equals `0`. -/
theorem gradient_not_symmetric_difference :
    npGradient [0, 1, 0] [0, 1, 3] = some [1, 1 / 2, -(1 / 2)]
    ∧ (([0, 1, 0] : List ℝ).getD 2 0 - ([0, 1, 0] : List ℝ).getD 0 0)
        / (([0, 1, 3] : List ℝ).getD 2 0 - ([0, 1, 3] : List ℝ).getD 0 0) = 0
    ∧ (1 / 2 : ℝ) ≠ 0 := by
  refine ⟨?_, by norm_num, by norm_num⟩
  have hrange : List.range 3 = [0, 1, 2] := rfl
  have h1 : npGradient [0, 1, 0] [0, 1, 3]
      = some (List.map (npGradientAt [0, 1, 0] [0, 1, 3]) (List.range 3)) := by
    simp [npGradient]
  rw [h1, hrange]
  simp only [List.map_cons, List.map_nil]
  norm_num [npGradientAt, List.getD_cons_zero, List.getD_cons_succ]

/-- Embeds `slope.max()` (numpy maximum of a nonempty array), as a left fold
of `max` over the list. -/
noncomputable def npMax (xs : List ℝ) : ℝ := xs.foldl max (xs.headD 0)

/-- Embeds `np.where(values < thr)[0][0]`: the first index whose element is
strictly below the threshold, `none` when `np.where` returns an empty index
array (on which the Python subscript `[0]` raises `IndexError`). -/
noncomputable def firstIdxLt (thr : ℝ) : List ℝ → Option ℕ
  | [] => none
  | a :: rest =>
    if a < thr then some 0 else (firstIdxLt thr rest).map (· + 1)

/-- Embeds `slope_threshold = slope.max() * 0.5` (line 97 of `app.py`). -/
noncomputable def slope_threshold (slope : List ℝ) : ℝ := npMax slope * 0.5

/-- Embeds `idx_C = np.where(slope < slope_threshold)[0][0]` (line 98). -/
noncomputable def idx_C (slope : List ℝ) : Option ℕ :=
  firstIdxLt (slope_threshold slope) slope

/-- Embeds `idx_D = np.where(slope < 0.01)[0][0]` (line 103). -/
noncomputable def idx_D (slope : List ℝ) : Option ℕ :=
  firstIdxLt 0.01 slope

/-- Embeds `point_C = (adstocked[idx_C], response[idx_C])` (lines 99-100). -/
noncomputable def point_C (slope adstocked response : List ℝ) : Option (ℝ × ℝ) :=
  (idx_C slope).map (fun i => (adstocked.getD i 0, response.getD i 0))

/-- Embeds `point_D = (adstocked[idx_D], response[idx_D])` (lines 104-105). -/
noncomputable def point_D (slope adstocked response : List ℝ) : Option (ℝ × ℝ) :=
  (idx_D slope).map (fun i => (adstocked.getD i 0, response.getD i 0))

section FirstIdxLemmas

/-- Soundness of the first-index search: a returned index is in range, its
element is below the threshold, and no strictly earlier element is. -/
lemma firstIdxLt_spec (thr : ℝ) :
    ∀ (xs : List ℝ) (i : ℕ), firstIdxLt thr xs = some i →
      i < xs.length ∧ xs.getD i 0 < thr ∧ ∀ j, j < i → ¬ (xs.getD j 0 < thr)
  | [], i, h => by simp [firstIdxLt] at h
  | a :: rest, i, h => by
    by_cases ha : a < thr
    · rw [firstIdxLt, if_pos ha] at h
      obtain rfl : 0 = i := Option.some.inj h
      exact ⟨Nat.succ_pos _, by simpa using ha, fun j hj => absurd hj (Nat.not_lt_zero j)⟩
    · rw [firstIdxLt, if_neg ha, Option.map_eq_some'] at h
      obtain ⟨i', hi', rfl⟩ := h
      obtain ⟨hlen, hlt, hfirst⟩ := firstIdxLt_spec thr rest i' hi'
      refine ⟨by simpa using Nat.succ_lt_succ hlen, by simpa using hlt, ?_⟩
      intro j hj
      match j with
      | 0 => simpa using ha
      | k + 1 => simpa using hfirst k (Nat.lt_of_succ_lt_succ hj)

/-- Completeness of the first-index search: if some in-range element is below
the threshold, the search succeeds. -/
lemma firstIdxLt_isSome (thr : ℝ) :
    ∀ xs : List ℝ, (∃ k, k < xs.length ∧ xs.getD k 0 < thr) →
      ∃ i, firstIdxLt thr xs = some i
  | [], h => by
    obtain ⟨k, hk, _⟩ := h
    simp at hk
  | a :: rest, h => by
    by_cases ha : a < thr
    · exact ⟨0, by rw [firstIdxLt, if_pos ha]⟩
    · obtain ⟨k, hk, hlt⟩ := h
      have hrest : ∃ k, k < rest.length ∧ rest.getD k 0 < thr := by
        match k with
        | 0 => exact absurd (by simpa using hlt) ha
        | k' + 1 =>
          exact ⟨k', Nat.lt_of_succ_lt_succ (by simpa using hk), by simpa using hlt⟩
      obtain ⟨i', hi'⟩ := firstIdxLt_isSome thr rest hrest
      exact ⟨i' + 1, by rw [firstIdxLt, if_neg ha, hi', Option.map_some']⟩

end FirstIdxLemmas

/-- C5: whenever some index is strictly below the respective threshold,
`idx_C` (resp. `idx_D`) is the first index, in series order, with
`slope < 0.5 * max(slope)` (resp. `slope < 0.01`): the element there is below
the threshold, every strictly earlier element is at or above it, and the
landmark is the pair `(adstocked[idx], response[idx])`. -/
theorem landmark_first_index (slope adstocked response : List ℝ)
    (hC : ∃ k, k < slope.length ∧ slope.getD k 0 < 0.5 * npMax slope)
    (hD : ∃ k, k < slope.length ∧ slope.getD k 0 < 0.01) :
    (∃ i, idx_C slope = some i
      ∧ i < slope.length
      ∧ slope.getD i 0 < 0.5 * npMax slope
      ∧ (∀ j, j < i → 0.5 * npMax slope ≤ slope.getD j 0)
      ∧ point_C slope adstocked response
          = some (adstocked.getD i 0, response.getD i 0))
    ∧ (∃ i, idx_D slope = some i
      ∧ i < slope.length
      ∧ slope.getD i 0 < 0.01
      ∧ (∀ j, j < i → 0.01 ≤ slope.getD j 0)
      ∧ point_D slope adstocked response
          = some (adstocked.getD i 0, response.getD i 0)) := by
  have hthr : slope_threshold slope = 0.5 * npMax slope := by
    rw [slope_threshold, mul_comm]
  constructor
  · obtain ⟨i, hi⟩ := firstIdxLt_isSome (slope_threshold slope) slope
      (by rw [hthr]; exact hC)
    obtain ⟨hlen, hlt, hfirst⟩ := firstIdxLt_spec _ slope i hi
    refine ⟨i, hi, hlen, by rw [← hthr]; exact hlt, ?_, ?_⟩
    · intro j hj
      have := hfirst j hj
      rw [hthr] at this
      linarith [not_lt.mp this]
    · rw [point_C, idx_C, hi, Option.map_some']
  · obtain ⟨i, hi⟩ := firstIdxLt_isSome 0.01 slope hD
    obtain ⟨hlen, hlt, hfirst⟩ := firstIdxLt_spec _ slope i hi
    refine ⟨i, hi, hlen, hlt, ?_, ?_⟩
    · intro j hj
      exact not_lt.mp (hfirst j hj)
    · rw [point_D, idx_D, hi, Option.map_some']

theorem landmark_first_index_witness :
    (∃ k, k < ([4, 1, 0] : List ℝ).length
      ∧ ([4, 1, 0] : List ℝ).getD k 0 < 0.5 * npMax [4, 1, 0])
    ∧ (∃ k, k < ([4, 1, 0] : List ℝ).length
      ∧ ([4, 1, 0] : List ℝ).getD k 0 < 0.01)
    ∧ ((∃ i, idx_C [4, 1, 0] = some i
      ∧ i < ([4, 1, 0] : List ℝ).length
      ∧ ([4, 1, 0] : List ℝ).getD i 0 < 0.5 * npMax [4, 1, 0]
      ∧ (∀ j, j < i → 0.5 * npMax [4, 1, 0] ≤ ([4, 1, 0] : List ℝ).getD j 0)
      ∧ point_C [4, 1, 0] [10, 20, 30] [7, 8, 9]
          = some (([10, 20, 30] : List ℝ).getD i 0, ([7, 8, 9] : List ℝ).getD i 0))
    ∧ (∃ i, idx_D [4, 1, 0] = some i
      ∧ i < ([4, 1, 0] : List ℝ).length
      ∧ ([4, 1, 0] : List ℝ).getD i 0 < 0.01
      ∧ (∀ j, j < i → 0.01 ≤ ([4, 1, 0] : List ℝ).getD j 0)
      ∧ point_D [4, 1, 0] [10, 20, 30] [7, 8, 9]
          = some (([10, 20, 30] : List ℝ).getD i 0, ([7, 8, 9] : List ℝ).getD i 0))) := by
  have hmax : npMax [4, 1, 0] = 4 := by
    norm_num [npMax, List.foldl, max_def]
  have hC : ∃ k, k < ([4, 1, 0] : List ℝ).length
      ∧ ([4, 1, 0] : List ℝ).getD k 0 < 0.5 * npMax [4, 1, 0] := by
    refine ⟨1, by norm_num, ?_⟩
    rw [hmax]
    norm_num
  have hD : ∃ k, k < ([4, 1, 0] : List ℝ).length
      ∧ ([4, 1, 0] : List ℝ).getD k 0 < 0.01 := by
    refine ⟨2, by norm_num, by norm_num⟩
  exact ⟨hC, hD, landmark_first_index [4, 1, 0] [10, 20, 30] [7, 8, 9] hC hD⟩

/-- C2: on the pair `response = adstocked = [0, 1, 2]` the slope sequence is
the constant `[1, 1, 1]`, so neither the Point C threshold
(`slope < max * 0.5`) nor the Point D threshold (`slope < 0.01`) is ever
crossed: both `np.where` index searches come back empty, and the unguarded
subscripts `[0][0]` on lines 98 and 103 of `app.py` therefore raise an
unhandled `IndexError` instead of reporting a recoverable
`LandmarkNotFound`. -/
theorem landmark_search_empty_on_constant_slope :
    npGradient [0, 1, 2] [0, 1, 2] = some [1, 1, 1]
    ∧ idx_C [1, 1, 1] = none
    ∧ idx_D [1, 1, 1] = none
    ∧ point_C [1, 1, 1] [0, 1, 2] [0, 1, 2] = none
    ∧ point_D [1, 1, 1] [0, 1, 2] [0, 1, 2] = none := by
  have hmax : npMax [1, 1, 1] = 1 := by
    norm_num [npMax, List.foldl, max_def]
  have hrange : List.range 3 = [0, 1, 2] := rfl
  have hgrad : npGradient [0, 1, 2] [0, 1, 2]
      = some (List.map (npGradientAt [0, 1, 2] [0, 1, 2]) (List.range 3)) := by
    simp [npGradient]
  have hC : idx_C [1, 1, 1] = none := by
    norm_num [idx_C, firstIdxLt, slope_threshold, hmax]
  have hD : idx_D [1, 1, 1] = none := by
    norm_num [idx_D, firstIdxLt]
  refine ⟨?_, hC, hD, ?_, ?_⟩
  · rw [hgrad, hrange]
    simp only [List.map_cons, List.map_nil]
    norm_num [npGradientAt, List.getD_cons_zero, List.getD_cons_succ]
  · rw [point_C, hC, Option.map_none']
  · rw [point_D, hD, Option.map_none']

/-- C4 (counterexample): with the nonpositive parameter `halfLife = -1` the
computation proceeds and produces full series — `compute_adstock_series`
returns `[1]` and `compute_response_series` returns `([1/2], [1])` — with no
error reported. -/
theorem nonpositive_half_life_proceeds :
    compute_adstock_series [1] (-1) = [1]
    ∧ compute_response_series [1] (-1) 1 1 1 = ([1 / 2], [1]) := by
  have hads : compute_adstock_series [1] (-1) = [1] := by
    simp [compute_adstock_series, adstockScan]
  refine ⟨hads, ?_⟩
  rw [compute_response_series]
  simp only [hads, List.map_cons, List.map_nil]
  norm_num [saturation_function, Real.one_rpow]

/-- C4 (amended): the core functions perform no parameter validation — even
when one of `halfLife`, `penetration`, `effectiveness`, `p` is nonpositive,
`compute_response_series` proceeds and produces response and adstocked series
of full input length (positivity is enforced only upstream, by the UI input
widgets' `min_value` bounds). -/
theorem no_parameter_validation (spend : List ℝ)
    (halfLife penetration effectiveness p : ℝ)
    (h : halfLife ≤ 0 ∨ penetration ≤ 0 ∨ effectiveness ≤ 0 ∨ p ≤ 0) :
    (compute_response_series spend halfLife penetration effectiveness p).1.length
        = spend.length
    ∧ (compute_response_series spend halfLife penetration effectiveness p).2.length
        = spend.length := by
  constructor
  · simp [compute_response_series, compute_adstock_series, adstockScan_length]
  · simp [compute_response_series, compute_adstock_series, adstockScan_length]

theorem no_parameter_validation_witness :
    ((-1 : ℝ) ≤ 0 ∨ (1 : ℝ) ≤ 0 ∨ (1 : ℝ) ≤ 0 ∨ (1 : ℝ) ≤ 0)
    ∧ ((compute_response_series [1, 2] (-1) 1 1 1).1.length = ([1, 2] : List ℝ).length
      ∧ (compute_response_series [1, 2] (-1) 1 1 1).2.length = ([1, 2] : List ℝ).length) :=
  ⟨Or.inl (by norm_num),
   no_parameter_validation [1, 2] (-1) 1 1 1 (Or.inl (by norm_num))⟩
